import Mathlib

/-!
Verification of the sales-chart tutorial application (`sales_chart_app.py`).

The embedding models Python strings as `List Char` (one character per list
element), a file as the list of its lines (the result of `readlines`, modulo
newline characters, which `strip` removes anyway), and the result of `open`
as an inductive `FileResult` so that the three caught exception classes
(`FileNotFoundError`, `ValueError` from parsing, and any other I/O error)
are all representable.  Pure rendering attributes of the chart library
(colors, bar widths, tooltips, spacings, fonts) are opaque constants of the
external toolkit and are not modelled; the data-bearing fields (group
positions, rod value ranges, axis label values and texts) are.
-/

namespace SalesChart

/-- Python strings are modelled as lists of characters. -/
abbrev PyStr := List Char

/-- The ASCII whitespace characters removed by Python `str.strip()`. -/
def pyIsSpace (c : Char) : Bool :=
  c = ' ' || c = '\t' || c = '\n' || c = '\r' || c = '\x0b' || c = '\x0c'

/-- Python `s.strip()`: remove leading and trailing whitespace. -/
def pyStrip (s : PyStr) : PyStr :=
  ((s.dropWhile pyIsSpace).reverse.dropWhile pyIsSpace).reverse

/-- Python `s.split(",")`: split on every comma, keeping empty fields. -/
def pySplitComma : PyStr → List PyStr
  | [] => [[]]
  | c :: cs =>
    if c = ',' then [] :: pySplitComma cs
    else
      match pySplitComma cs with
      | [] => [[c]]
      | h :: t => (c :: h) :: t

/-- Numeric value of a decimal digit character. -/
def digitVal (c : Char) : Nat := c.toNat - 48

/-- Digit run of Python `int()` after the first digit: decimal digits with
single underscores allowed between digits (`1_000`), accumulating the value. -/
def pyDigitsGo : Nat → PyStr → Option Nat
  | acc, [] => some acc
  | acc, c :: cs =>
    if c.isDigit then pyDigitsGo (10 * acc + digitVal c) cs
    else if c = '_' then
      match cs with
      | [] => none
      | d :: cs2 => if d.isDigit then pyDigitsGo (10 * acc + digitVal d) cs2 else none
    else none

/-- Digit part of Python `int()`: at least one digit, then `pyDigitsGo`. -/
def pyDigits : PyStr → Option Nat
  | [] => none
  | c :: cs => if c.isDigit then pyDigitsGo (digitVal c) cs else none

/-- Python `int(s)` on a base-10 string: surrounding whitespace is ignored,
then an optional sign followed by a digit run; `none` models the
`ValueError` raised on any other shape.  (Python's additional acceptance of
non-ASCII decimal digits is outside this model.) -/
def pyInt (s : PyStr) : Option Int :=
  match pyStrip s with
  | [] => none
  | c :: rest =>
    if c = '+' then (pyDigits rest).map (fun n => (n : Int))
    else if c = '-' then (pyDigits rest).map (fun n => -(n : Int))
    else (pyDigits (c :: rest)).map (fun n => (n : Int))

/-- One parsed CSV record: the dictionary
`{"month": ..., "sales": ..., "expenses": ...}` built by `read_csv`. -/
structure Record where
  month : PyStr
  sales : Int
  expenses : Int
deriving Repr, DecidableEq

/-- The dictionary returned by `calculate_totals`. -/
structure Totals where
  sales : Int
  expenses : Int
  profit : Int
deriving Repr, DecidableEq

/-- Result of `open(filename)` + `readlines()`: either the file's lines, or
`FileNotFoundError`, or any other I/O exception (`OSError` etc.). -/
inductive FileResult where
  | found (lines : List PyStr)
  | notFound
  | ioError
deriving Repr, DecidableEq

/-- The loop body of `read_csv` over the data lines (`lines[1:]`): strip each
line, skip it if empty, otherwise unpack `line.split(",")` into exactly three
fields and convert; `none` models the `ValueError` (from unpacking or from
`int()`) that aborts the whole loop. -/
def parseDataLines : List PyStr → Option (List Record)
  | [] => some []
  | l :: ls =>
    let line := pyStrip l
    if line.isEmpty then parseDataLines ls
    else
      match pySplitComma line with
      | [m, sales_str, expenses_str] =>
        match pyInt sales_str, pyInt expenses_str with
        | some sales, some expenses =>
          (parseDataLines ls).map
            (fun rest => { month := pyStrip m, sales := sales, expenses := expenses } :: rest)
        | _, _ => none
      | _ => none

/-- `read_csv`: skip the header line, parse the rest; every caught exception
(missing file, parse failure, other I/O error) is logged and turned into
the empty list. -/
def read_csv (file : FileResult) : List Record :=
  match file with
  | .notFound => []
  | .ioError => []
  | .found lines =>
    match parseDataLines (lines.drop 1) with
    | some recs => recs
    | none => []

/-- `calculate_totals`: total sales, total expenses, and their difference. -/
def calculate_totals (data : List Record) : Totals :=
  let total_sales := (data.map Record.sales).sum
  let total_expenses := (data.map Record.expenses).sum
  { sales := total_sales, expenses := total_expenses,
    profit := total_sales - total_expenses }

/-- The character for a decimal digit (`0`–`9`); inputs above 9 do not occur. -/
def digitChar (d : Nat) : Char :=
  if d = 0 then '0' else if d = 1 then '1' else if d = 2 then '2'
  else if d = 3 then '3' else if d = 4 then '4' else if d = 5 then '5'
  else if d = 6 then '6' else if d = 7 then '7' else if d = 8 then '8' else '9'

/-- Decimal rendering of a natural number, most significant digit first,
prepended to `acc`; structural recursion on a fuel bound (any fuel above the
number itself is enough, see `natDecimalAux_fuel`). -/
def natDecimalAux : Nat → Nat → PyStr → PyStr
  | 0, _, acc => acc
  | fuel + 1, n, acc =>
    if n < 10 then digitChar n :: acc
    else natDecimalAux fuel (n / 10) (digitChar (n % 10) :: acc)

/-- Decimal rendering of a natural number (Python `str` on a nonnegative int). -/
def natDecimal (n : Nat) : PyStr := natDecimalAux (n + 1) n []

/-- Decimal rendering of an integer (Python `str(i)` / f-string interpolation). -/
def intDecimal : Int → PyStr
  | .ofNat n => natDecimal n
  | .negSucc n => '-' :: natDecimal (n + 1)

/-- A bar of the external chart library; only the data-bearing value range is
modelled (color, width, tooltip are opaque rendering attributes). -/
structure BarChartRod where
  from_y : Int
  to_y : Int
deriving Repr, DecidableEq

/-- One chart group: a horizontal position `x` and its bars. -/
structure BarChartGroup where
  x : Nat
  rods : List BarChartRod
deriving Repr, DecidableEq

/-- One axis label: position along the axis and displayed text. -/
structure ChartAxisLabel where
  value : Int
  label : PyStr
deriving Repr, DecidableEq

/-- The chart: groups plus the two custom label lists. -/
structure BarChart where
  groups : List BarChartGroup
  left_labels : List ChartAxisLabel
  bottom_labels : List ChartAxisLabel
deriving Repr, DecidableEq

/-- `max(max(item["sales"], item["expenses"]) for item in data)`: Python
`max` over a generator, which raises `ValueError` (here `none`) on empty
input. -/
def maxSalesExpenses : List Record → Option Int
  | [] => none
  | r :: rs =>
    some (rs.foldl (fun a it => max a (max it.sales it.expenses))
      (max r.sales r.expenses))

/-- Python `range(0, stop, 1000)` over integers: the values
`0, 1000, 2000, ...` strictly below `stop`. -/
def range1000 (stop : Int) : List Int :=
  (List.range ((stop + 999).fdiv 1000).toNat).map (fun i => 1000 * (i : Int))

/-- The left-axis label built for one tick value: `"0"` at zero, otherwise
`f"{value // 1000}K"`. -/
def leftLabel (value : Int) : ChartAxisLabel :=
  { value := value,
    label := if value = 0 then ['0'] else intDecimal (value.fdiv 1000) ++ ['K'] }

/-- `create_sales_chart`: one group and one bottom label per record (indexed
by `enumerate`), and one left label per `range(0, max_y + 1000, 1000)` tick,
where `max_y = ((max_value // 1000) + 1) * 1000`.  `none` models the
`ValueError` that `max` raises on an empty data list. -/
def create_sales_chart (data : List Record) : Option BarChart :=
  match maxSalesExpenses data with
  | none => none
  | some max_value =>
    let max_y : Int := (max_value.fdiv 1000 + 1) * 1000
    let groups := data.enum.map (fun p =>
      { x := p.1,
        rods := [{ from_y := 0, to_y := p.2.sales },
                 { from_y := 0, to_y := p.2.expenses }] : BarChartGroup })
    let bottom_labels := data.enum.map (fun p =>
      { value := (p.1 : Int), label := p.2.month.take 3 : ChartAxisLabel })
    let left_labels := (range1000 (max_y + 1000)).map leftLabel
    some { groups := groups, left_labels := left_labels,
           bottom_labels := bottom_labels }

/-- The static error message `main` shows when no data was loaded. -/
def errorText : PyStr :=
  ['E', 'r', 'r', 'o', 'r', ':', ' ', 'C', 'o', 'u', 'l', 'd', ' ', 'n', 'o',
   't', ' ', 'l', 'o', 'a', 'd', ' ', 'd', 'a', 't', 'a', ' ', 'f', 'r', 'o',
   'm', ' ', 'C', 'S', 'V', ' ', 'f', 'i', 'l', 'e', '.']

/-- What `main` leaves on the page: either the static error message, or the
dashboard built from the totals and the chart. -/
inductive PageOutcome where
  | errorMessage (msg : PyStr)
  | dashboard (totals : Totals) (chart : BarChart)
deriving Repr, DecidableEq

/-- `main`: load the data; on an empty result show the error message and
return early, otherwise compute totals and build the chart.  `none` models
an uncaught exception escaping `main`. -/
def main (file : FileResult) : Option PageOutcome :=
  let data := read_csv file
  if data.isEmpty then some (.errorMessage errorText)
  else
    let totals := calculate_totals data
    (create_sales_chart data).map (fun chart => .dashboard totals chart)

/-- Whether a raw line aborts the load: nonempty after stripping, and either
not exactly three comma-separated fields or a numeric field `int()` rejects. -/
def lineMalformed (l : PyStr) : Bool :=
  let s := pyStrip l
  !s.isEmpty &&
    (match pySplitComma s with
     | [_, sales_str, expenses_str] =>
       (pyInt sales_str).isNone || (pyInt expenses_str).isNone
     | _ => true)

/-- Modelled from the spec (§8 round-trip; the repository contains no CSV
writer): the lines of a CSV file consisting of a header line followed by one
`month,sales,expenses` line per record. -/
def writeCsvLines (header : PyStr) (rs : List Record) : List PyStr :=
  header :: rs.map (fun r =>
    r.month ++ ',' :: (intDecimal r.sales ++ ',' :: intDecimal r.expenses))

/-- A record whose CSV line round-trips: the month has no surrounding
whitespace (stripping would change it), no comma (it would split), and no
line-break character (it would not fit on one line of the file model). -/
def wellFormedRecord (r : Record) : Prop :=
  pyStrip r.month = r.month ∧ ∀ c ∈ r.month, c ≠ ',' ∧ c ≠ '\n' ∧ c ≠ '\r'

instance (r : Record) : Decidable (wellFormedRecord r) :=
  inferInstanceAs (Decidable (pyStrip r.month = r.month ∧
    ∀ c ∈ r.month, c ≠ ',' ∧ c ≠ '\n' ∧ c ≠ '\r'))

/-- Written per the claim's words: the axis tick labels from `0` to `bound`
in increments of `1000`, the zero tick labeled `"0"` and the tick at
`n * 1000` labeled `"<n>K"` (empty when the bound is negative). -/
def specTickLabels (bound : Int) : List ChartAxisLabel :=
  if bound < 0 then []
  else
    (List.range (bound.toNat / 1000 + 1)).map (fun n =>
      { value := 1000 * (n : Int),
        label := if n = 0 then ['0'] else intDecimal (n : Int) ++ ['K'] })

/-! ## Claims about the totals aggregator -/

/-- Claim C1: `calculate_totals` returns a `Totals` value whose `sales` field
is the sum of all record sales, whose `expenses` field is the sum of all
record expenses, and whose `profit` field is their difference. -/
theorem calculate_totals_sums (data : List Record) :
    (calculate_totals data).sales = (data.map Record.sales).sum ∧
    (calculate_totals data).expenses = (data.map Record.expenses).sum ∧
    (calculate_totals data).profit =
      (calculate_totals data).sales - (calculate_totals data).expenses := by
  refine ⟨rfl, rfl, rfl⟩

/-- Claim C8: `calculate_totals` is order-independent — any permutation of the
record list yields the same `Totals`. -/
theorem calculate_totals_perm (R Rp : List Record) (h : R.Perm Rp) :
    calculate_totals Rp = calculate_totals R := by
  unfold calculate_totals
  rw [(h.map Record.sales).sum_eq, (h.map Record.expenses).sum_eq]

/-- Witness for C8 at a concrete two-element permutation. -/
theorem calculate_totals_perm_witness :
    calculate_totals [⟨['F'], 2000, 800⟩, ⟨['J'], 1000, 500⟩] =
      calculate_totals [⟨['J'], 1000, 500⟩, ⟨['F'], 2000, 800⟩] :=
  calculate_totals_perm _ _ (List.Perm.swap _ _ _)

/-- Claim C9: `calculate_totals` on the empty record list returns all-zero
totals. -/
theorem calculate_totals_empty :
    calculate_totals [] = { sales := 0, expenses := 0, profit := 0 } := rfl

/-! ## Claims about the loader's error handling -/

/-- Claim C2: `read_csv` never lets an exception reach its caller: a missing
file, any parse failure, and any other I/O failure all produce the empty
list, and otherwise the parsed records are returned. -/
theorem read_csv_never_raises (file : FileResult) :
    (file = .notFound → read_csv file = []) ∧
    (file = .ioError → read_csv file = []) ∧
    (∀ lines, file = .found lines → parseDataLines (lines.drop 1) = none →
      read_csv file = []) ∧
    (∀ lines recs, file = .found lines →
      parseDataLines (lines.drop 1) = some recs → read_csv file = recs) := by
  refine ⟨fun h => by subst h; rfl, fun h => by subst h; rfl,
    fun lines h hn => by subst h; simp only [read_csv]; rw [hn],
    fun lines recs h hs => by subst h; simp only [read_csv]; rw [hs]⟩

/-- Witness for C2: each arm of the contract at a concrete file. -/
theorem read_csv_never_raises_witness :
    read_csv .notFound = [] ∧ read_csv .ioError = [] ∧
    read_csv (.found [['h'], ['x']]) = [] ∧
    read_csv (.found [['h'], ['J', ',', '1', ',', '2']]) = [⟨['J'], 1, 2⟩] :=
  ⟨(read_csv_never_raises .notFound).1 rfl,
   (read_csv_never_raises .ioError).2.1 rfl,
   (read_csv_never_raises _).2.2.1 [['h'], ['x']] rfl (by decide),
   (read_csv_never_raises _).2.2.2 [['h'], ['J', ',', '1', ',', '2']]
     [⟨['J'], 1, 2⟩] rfl (by decide)⟩

/-! ## Atomicity of the loader -/

/-- `parseDataLines` fails exactly when some line is malformed: an earlier
well-formed line never hides a later malformed one, and skipped blank lines
never count. -/
theorem parseDataLines_eq_none_iff (ls : List PyStr) :
    parseDataLines ls = none ↔ ∃ l ∈ ls, lineMalformed l = true := by
  induction ls with
  | nil => simp [parseDataLines]
  | cons l ls ih =>
    simp only [parseDataLines, List.mem_cons, exists_eq_or_imp, ← ih]
    by_cases h1 : (pyStrip l).isEmpty
    · have hm : lineMalformed l = false := by simp [lineMalformed, h1]
      simp [h1, hm]
    · have hm : lineMalformed l =
          (match pySplitComma (pyStrip l) with
           | [_, sales_str, expenses_str] =>
             (pyInt sales_str).isNone || (pyInt expenses_str).isNone
           | _ => true) := by
        simp [lineMalformed, h1]
      rw [if_neg h1]
      rcases hsp : pySplitComma (pyStrip l) with _ | ⟨m, _ | ⟨s1, _ | ⟨s2, _ | ⟨s3, tl⟩⟩⟩⟩ <;>
        rw [hsp] at hm <;> simp only at hm
      · simp [hm]
      · simp [hm]
      · simp [hm]
      · rcases hi1 : pyInt s1 with _ | v1
        · simp [hi1, Option.isNone] at hm; simp [hm, hi1]
        · rcases hi2 : pyInt s2 with _ | v2
          · simp [hi1, hi2, Option.isNone] at hm; simp [hm, hi1, hi2]
          · simp [hi1, hi2, Option.isNone] at hm
            simp [hi1, hi2, hm, Option.map_eq_none']
      · simp [hm]

/-- When `parseDataLines` succeeds, it returns one record per non-blank
line. -/
theorem parseDataLines_length (ls : List PyStr) (recs : List Record)
    (h : parseDataLines ls = some recs) :
    recs.length = (ls.filter (fun l => !(pyStrip l).isEmpty)).length := by
  induction ls generalizing recs with
  | nil => simp [parseDataLines] at h; simp [← h]
  | cons l ls ih =>
    simp only [parseDataLines] at h
    by_cases h1 : (pyStrip l).isEmpty
    · rw [if_pos h1] at h
      simp [List.filter_cons, h1, ih recs h]
    · rw [if_neg h1] at h
      rcases hsp : pySplitComma (pyStrip l) with _ | ⟨m, _ | ⟨s1, _ | ⟨s2, _ | ⟨s3, tl⟩⟩⟩⟩ <;>
          rw [hsp] at h <;> simp only at h
      · exact absurd h (by simp)
      · exact absurd h (by simp)
      · exact absurd h (by simp)
      · rcases hi1 : pyInt s1 with _ | v1 <;> rw [hi1] at h
        · exact absurd h (by simp)
        rcases hi2 : pyInt s2 with _ | v2 <;> rw [hi2] at h
        · exact absurd h (by simp)
        rcases hrest : parseDataLines ls with _ | rest <;> rw [hrest] at h
        · exact absurd h (by simp)
        · have hrec : ({ month := pyStrip m, sales := v1, expenses := v2 } :: rest) = recs := by
            simpa using h
          subst hrec
          simp [List.filter_cons, h1, ih rest hrest]
      · exact absurd h (by simp)

/-- Claim C3: the load is atomic — one malformed data line empties the whole
result, discarding records parsed from earlier lines, and a fully
well-formed file yields one record per non-blank line after the header. -/
theorem read_csv_atomic (lines : List PyStr) :
    ((∃ l ∈ lines.drop 1, lineMalformed l = true) →
      read_csv (.found lines) = []) ∧
    ((∀ l ∈ lines.drop 1, lineMalformed l = false) →
      (read_csv (.found lines)).length =
        ((lines.drop 1).filter (fun l => !(pyStrip l).isEmpty)).length) := by
  constructor
  · intro h
    have hn := (parseDataLines_eq_none_iff (lines.drop 1)).2 h
    simp only [read_csv]; rw [hn]
  · intro h
    rcases hp : parseDataLines (lines.drop 1) with _ | recs
    · obtain ⟨l, hl, hmal⟩ := (parseDataLines_eq_none_iff (lines.drop 1)).1 hp
      rw [h l hl] at hmal
      exact absurd hmal (by simp)
    · have := parseDataLines_length _ _ hp
      simp only [read_csv]; rw [hp]; exact this

/-- Witness for C3: both arms at concrete files (one with a non-numeric
sales field, one fully well-formed with a blank line). -/
theorem read_csv_atomic_witness :
    read_csv (.found [['h'], ['J', ',', '1', ',', '2'], ['F', ',', 'x', ',', '3']]) = [] ∧
    (read_csv (.found [['h'], ['J', ',', '1', ',', '2'], [' '], ['F', ',', '4', ',', '3']])).length =
      (([['J', ',', '1', ',', '2'], [' '], ['F', ',', '4', ',', '3']] :
        List PyStr).filter (fun l => !(pyStrip l).isEmpty)).length :=
  ⟨(read_csv_atomic _).1 ⟨['F', ',', 'x', ',', '3'], by decide, by decide⟩,
   by
    have := (read_csv_atomic
      [['h'], ['J', ',', '1', ',', '2'], [' '], ['F', ',', '4', ',', '3']]).2
      (by decide)
    exact this⟩

/-! ## Line-by-line processing of the loader -/

/-- Claim C5: the header line is discarded without inspection; each further
line is stripped; blank lines are skipped silently; any other line is split
on the literal comma into exactly three fields (any other field count
aborts), the trimmed first field becomes the month, and the second and third
fields go through Python `int()`. -/
theorem read_csv_line_processing :
    (∀ h1 h2 rest, read_csv (.found (h1 :: rest)) = read_csv (.found (h2 :: rest))) ∧
    (∀ l ls, (pyStrip l).isEmpty = true →
      parseDataLines (l :: ls) = parseDataLines ls) ∧
    (∀ l ls m sales_str expenses_str, (pyStrip l).isEmpty = false →
      pySplitComma (pyStrip l) = [m, sales_str, expenses_str] →
      parseDataLines (l :: ls) =
        match pyInt sales_str, pyInt expenses_str with
        | some sales, some expenses =>
          (parseDataLines ls).map
            (fun rest => { month := pyStrip m, sales := sales,
                           expenses := expenses } :: rest)
        | _, _ => none) ∧
    (∀ l ls parts, (pyStrip l).isEmpty = false →
      pySplitComma (pyStrip l) = parts → parts.length ≠ 3 →
      parseDataLines (l :: ls) = none) := by
  refine ⟨fun h1 h2 rest => rfl, fun l ls h => by simp [parseDataLines, h],
    fun l ls m s1 s2 h hsp => ?_, fun l ls parts h hsp hlen => ?_⟩
  · simp only [parseDataLines]
    rw [if_neg (by simp [h]), hsp]
  · simp only [parseDataLines]
    rw [if_neg (by simp [h]), hsp]
    rcases parts with _ | ⟨m, _ | ⟨s1, _ | ⟨s2, _ | ⟨s3, tl⟩⟩⟩⟩
    · rfl
    · rfl
    · rfl
    · simp at hlen
    · rfl

/-- Witness for C5: each arm at a concrete line. -/
theorem read_csv_line_processing_witness :
    read_csv (.found (['h'] :: [['J', ',', '1', ',', '2']])) =
      read_csv (.found (['x', 'y'] :: [['J', ',', '1', ',', '2']])) ∧
    parseDataLines ([' ', '\t'] :: [['J', ',', '1', ',', '2']]) =
      parseDataLines [['J', ',', '1', ',', '2']] ∧
    parseDataLines [[' ', 'J', ',', ' ', '4', '2', ',', '7', ' ']] =
      (parseDataLines ([] : List PyStr)).map
        (fun rest => { month := ['J'], sales := 42, expenses := 7 } :: rest) ∧
    parseDataLines [['a', ',', 'b']] = none := by
  refine ⟨read_csv_line_processing.1 ['h'] ['x', 'y'] _,
    read_csv_line_processing.2.1 _ _ (by decide), ?_, ?_⟩
  · have := read_csv_line_processing.2.2.1
      [' ', 'J', ',', ' ', '4', '2', ',', '7', ' '] []
      ['J'] [' ', '4', '2'] ['7'] (by decide) (by decide)
    rw [this]; decide
  · exact read_csv_line_processing.2.2.2 ['a', ',', 'b'] [] [['a'], ['b']]
      (by decide) (by decide) (by decide)

/-! ## Decimal rendering round-trips through the parser -/

/-- The ten decimal digit characters. -/
def decDigits : PyStr := ['0', '1', '2', '3', '4', '5', '6', '7', '8', '9']

/-- `digitChar` always lands in the decimal digit characters. -/
theorem digitChar_mem_decDigits (d : Nat) : digitChar d ∈ decDigits := by
  unfold digitChar
  repeat' split
  all_goals decide

/-- Every decimal digit character is a digit for `Char.isDigit`. -/
theorem decDigits_isDigit : ∀ c ∈ decDigits, c.isDigit = true := by decide

/-- No decimal digit character is whitespace. -/
theorem decDigits_not_space : ∀ c ∈ decDigits, pyIsSpace c = false := by decide

/-- No decimal digit character is a comma, a sign, or an underscore. -/
theorem decDigits_not_special :
    ∀ c ∈ decDigits, c ≠ ',' ∧ c ≠ '+' ∧ c ≠ '-' ∧ c ≠ '_' := by decide

/-- `digitVal` inverts `digitChar` on single digits. -/
theorem digitVal_digitChar (d : Nat) (h : d < 10) :
    digitVal (digitChar d) = d := by
  interval_cases d <;> decide

/-- Characters produced by `natDecimalAux` are digit characters or come from
the accumulator. -/
theorem natDecimalAux_chars (fuel : Nat) :
    ∀ (n : Nat) (acc : PyStr) (c : Char), c ∈ natDecimalAux fuel n acc →
      c ∈ acc ∨ c ∈ decDigits := by
  induction fuel with
  | zero => exact fun n acc c hc => Or.inl hc
  | succ fuel ih =>
    intro n acc c hc
    unfold natDecimalAux at hc
    by_cases h10 : n < 10
    · rw [if_pos h10] at hc
      rcases List.mem_cons.1 hc with h | h
      · exact Or.inr (h ▸ digitChar_mem_decDigits n)
      · exact Or.inl h
    · rw [if_neg h10] at hc
      rcases ih (n / 10) (digitChar (n % 10) :: acc) c hc with h | h
      · rcases List.mem_cons.1 h with h2 | h2
        · exact Or.inr (h2 ▸ digitChar_mem_decDigits (n % 10))
        · exact Or.inl h2
      · exact Or.inr h

/-- Every character of `natDecimal n` is a digit character. -/
theorem natDecimal_chars (n : Nat) (c : Char) (hc : c ∈ natDecimal n) :
    c ∈ decDigits := by
  rcases natDecimalAux_chars (n + 1) n [] c hc with h | h
  · cases h
  · exact h

/-- Any fuel above the rendered number gives the same digits. -/
theorem natDecimalAux_fuel (f1 : Nat) :
    ∀ (f2 n : Nat) (acc : PyStr), n < f1 → n < f2 →
      natDecimalAux f1 n acc = natDecimalAux f2 n acc := by
  induction f1 with
  | zero => omega
  | succ f1 ih =>
    intro f2 n acc h1 h2
    cases f2 with
    | zero => omega
    | succ f2 =>
      unfold natDecimalAux
      by_cases h10 : n < 10
      · rw [if_pos h10, if_pos h10]
      · rw [if_neg h10, if_neg h10]
        have hdiv : n / 10 < n := Nat.div_lt_self (by omega) (by omega)
        exact ih f2 (n / 10) _ (by omega) (by omega)

/-- The accumulator of `natDecimalAux` is simply appended after the digits. -/
theorem natDecimalAux_append (fuel : Nat) :
    ∀ (n : Nat) (acc : PyStr), n < fuel →
      natDecimalAux fuel n acc = natDecimalAux fuel n [] ++ acc := by
  induction fuel with
  | zero => omega
  | succ fuel ih =>
    intro n acc h
    unfold natDecimalAux
    by_cases h10 : n < 10
    · rw [if_pos h10, if_pos h10]; rfl
    · rw [if_neg h10, if_neg h10]
      have hdiv : n / 10 < n := Nat.div_lt_self (by omega) (by omega)
      rw [ih (n / 10) (digitChar (n % 10) :: acc) (by omega),
        ih (n / 10) [digitChar (n % 10)] (by omega), List.append_assoc]
      rfl

/-- `natDecimal` on a single digit. -/
theorem natDecimal_lt10 (n : Nat) (h : n < 10) :
    natDecimal n = [digitChar n] := by
  unfold natDecimal natDecimalAux
  rw [if_pos h]

/-- `natDecimal` on two or more digits splits off the last digit. -/
theorem natDecimal_ge10 (n : Nat) (h : 10 ≤ n) :
    natDecimal n = natDecimal (n / 10) ++ [digitChar (n % 10)] := by
  have hdiv : n / 10 < n := Nat.div_lt_self (by omega) (by omega)
  unfold natDecimal
  conv_lhs => rw [natDecimalAux]
  rw [if_neg (by omega),
    natDecimalAux_append n (n / 10) [digitChar (n % 10)] (by omega),
    natDecimalAux_fuel n (n / 10 + 1) (n / 10) [] (by omega) (by omega)]

/-- `natDecimal n` is never the empty string. -/
theorem natDecimal_ne_nil (n : Nat) : natDecimal n ≠ [] := by
  by_cases h : n < 10
  · rw [natDecimal_lt10 n h]; simp
  · rw [natDecimal_ge10 n (by omega)]; simp

/-- Folding the digit-accumulation step over `natDecimal n` recovers `n`. -/
theorem foldl_natDecimal (n : Nat) :
    ∀ a : Nat, (natDecimal n).foldl (fun b c => 10 * b + digitVal c) a =
      a * 10 ^ (natDecimal n).length + n := by
  induction n using Nat.strong_induction_on with
  | _ n ih =>
    intro a
    by_cases h : n < 10
    · rw [natDecimal_lt10 n h]
      simp [digitVal_digitChar n h]
      ring
    · have hdiv : n / 10 < n := Nat.div_lt_self (by omega) (by omega)
      rw [natDecimal_ge10 n (by omega), List.foldl_append,
        ih (n / 10) hdiv a]
      simp only [List.foldl_cons, List.foldl_nil, List.length_append,
        List.length_singleton]
      rw [digitVal_digitChar (n % 10) (Nat.mod_lt _ (by omega)), pow_succ]
      have hmod : 10 * (n / 10) + n % 10 = n := Nat.div_add_mod n 10
      calc 10 * (a * 10 ^ (natDecimal (n / 10)).length + n / 10) + n % 10
          = a * (10 ^ (natDecimal (n / 10)).length * 10) +
              (10 * (n / 10) + n % 10) := by ring
        _ = a * (10 ^ (natDecimal (n / 10)).length * 10) + n := by rw [hmod]

/-- The digit run of `int()` accepts any all-digit string, folding up its
value. -/
theorem pyDigitsGo_all_digits (cs : PyStr) :
    ∀ acc : Nat, (∀ c ∈ cs, c.isDigit = true) →
      pyDigitsGo acc cs =
        some (cs.foldl (fun b c => 10 * b + digitVal c) acc) := by
  induction cs with
  | nil => intro acc _; rfl
  | cons c cs ih =>
    intro acc h
    unfold pyDigitsGo
    rw [if_pos (h c (List.mem_cons_self _ _))]
    rw [ih _ (fun x hx => h x (List.mem_cons_of_mem _ hx))]
    rfl

/-- The digit part of `int()` inverts `natDecimal`. -/
theorem pyDigits_natDecimal (n : Nat) : pyDigits (natDecimal n) = some n := by
  rcases hnd : natDecimal n with _ | ⟨c, cs⟩
  · exact absurd hnd (natDecimal_ne_nil n)
  · have hdig : ∀ x ∈ c :: cs, x.isDigit = true := fun x hx =>
      decDigits_isDigit x (natDecimal_chars n x (hnd ▸ hx))
    simp only [pyDigits]
    rw [if_pos (hdig c (List.mem_cons_self _ _))]
    rw [pyDigitsGo_all_digits cs (digitVal c)
      (fun x hx => hdig x (List.mem_cons_of_mem _ hx))]
    have hfold := foldl_natDecimal n 0
    rw [hnd] at hfold
    simp only [List.foldl_cons, Nat.mul_zero, Nat.zero_add] at hfold
    rw [hfold]
    simp

/-- `intDecimal i` is never the empty string. -/
theorem intDecimal_ne_nil (i : Int) : intDecimal i ≠ [] := by
  cases i with
  | ofNat n => exact natDecimal_ne_nil n
  | negSucc n => simp [intDecimal]

/-- Every character of `intDecimal i` is a minus sign or a digit character. -/
theorem intDecimal_chars (i : Int) (c : Char) (hc : c ∈ intDecimal i) :
    c = '-' ∨ c ∈ decDigits := by
  cases i with
  | ofNat n => exact Or.inr (natDecimal_chars n c hc)
  | negSucc n =>
    rcases List.mem_cons.1 hc with h | h
    · exact Or.inl h
    · exact Or.inr (natDecimal_chars (n + 1) c h)

/-- No character of `intDecimal i` is whitespace. -/
theorem intDecimal_not_space (i : Int) (c : Char) (hc : c ∈ intDecimal i) :
    pyIsSpace c = false := by
  rcases intDecimal_chars i c hc with h | h
  · subst h; decide
  · exact decDigits_not_space c h

/-- No character of `intDecimal i` is a comma. -/
theorem intDecimal_ne_comma (i : Int) (c : Char) (hc : c ∈ intDecimal i) :
    c ≠ ',' := by
  rcases intDecimal_chars i c hc with h | h
  · subst h; decide
  · exact (decDigits_not_special c h).1

/-- `dropWhile` keeps a list whose characters all fail the predicate. -/
theorem dropWhile_all_false {p : Char → Bool} (s : PyStr)
    (h : ∀ c ∈ s, p c = false) : s.dropWhile p = s := by
  cases s with
  | nil => rfl
  | cons a t =>
    exact List.dropWhile_cons_of_neg (by simp [h a (List.mem_cons_self _ _)])

/-- Stripping a string with no whitespace at all changes nothing. -/
theorem pyStrip_all_nonspace (s : PyStr) (h : ∀ c ∈ s, pyIsSpace c = false) :
    pyStrip s = s := by
  unfold pyStrip
  rw [dropWhile_all_false s h,
    dropWhile_all_false s.reverse (fun c hc => h c (List.mem_reverse.1 hc)),
    List.reverse_reverse]

/-- Python `int()` inverts the decimal rendering of any integer. -/
theorem pyInt_intDecimal (i : Int) : pyInt (intDecimal i) = some i := by
  have hstrip : pyStrip (intDecimal i) = intDecimal i :=
    pyStrip_all_nonspace _ (intDecimal_not_space i)
  cases i with
  | ofNat n =>
    show pyInt (natDecimal n) = some (Int.ofNat n)
    have hd := pyDigits_natDecimal n
    rcases hnd : natDecimal n with _ | ⟨c, cs⟩
    · exact absurd hnd (natDecimal_ne_nil n)
    · have hcm : c ∈ decDigits := natDecimal_chars n c (by rw [hnd]; simp)
      have hstrip2 : pyStrip (c :: cs) = c :: cs := by rw [← hnd]; exact hstrip
      rw [hnd] at hd
      simp only [pyInt, hstrip2]
      rw [if_neg (decDigits_not_special c hcm).2.1,
        if_neg (decDigits_not_special c hcm).2.2.1, hd]
      rfl
  | negSucc n =>
    show pyInt ('-' :: natDecimal (n + 1)) = some (Int.negSucc n)
    have hstrip2 : pyStrip ('-' :: natDecimal (n + 1)) =
        '-' :: natDecimal (n + 1) := hstrip
    simp only [pyInt, hstrip2]
    rw [if_neg (by decide), if_pos trivial, pyDigits_natDecimal (n + 1)]
    simp [Int.negSucc_eq]

/-! ## Splitting and stripping the written CSV line -/

/-- One-step unfolding of `pySplitComma` on a nonempty string. -/
theorem pySplitComma_cons (c : Char) (cs : PyStr) :
    pySplitComma (c :: cs) =
      if c = ',' then [] :: pySplitComma cs
      else
        match pySplitComma cs with
        | [] => [[c]]
        | h :: t => (c :: h) :: t := rfl

/-- Splitting a comma-free string yields that single field. -/
theorem pySplitComma_no_comma (s : PyStr) (h : ∀ c ∈ s, c ≠ ',') :
    pySplitComma s = [s] := by
  induction s with
  | nil => rfl
  | cons c cs ih =>
    unfold pySplitComma
    rw [if_neg (h c (List.mem_cons_self _ _)),
      ih (fun x hx => h x (List.mem_cons_of_mem _ hx))]

/-- Splitting past a comma-free prefix peels off that field. -/
theorem pySplitComma_append (a : PyStr) :
    ∀ b : PyStr, (∀ c ∈ a, c ≠ ',') →
      pySplitComma (a ++ ',' :: b) = a :: pySplitComma b := by
  induction a with
  | nil =>
    intro b _
    simp [pySplitComma]
  | cons c cs ih =>
    intro b h
    rw [List.cons_append, pySplitComma_cons,
      if_neg (h c (List.mem_cons_self _ _)),
      ih b (fun x hx => h x (List.mem_cons_of_mem _ hx))]

/-- A string fixed by `pyStrip` is fixed by each directional `dropWhile`. -/
theorem pyStrip_eq_self_parts (s : PyStr) (h : pyStrip s = s) :
    s.dropWhile pyIsSpace = s ∧ s.reverse.dropWhile pyIsSpace = s.reverse := by
  unfold pyStrip at h
  have hlen : (s.dropWhile pyIsSpace).length = s.length := by
    have h1 := (List.dropWhile_sublist (l := s) pyIsSpace).length_le
    have h2 := (List.dropWhile_sublist
      (l := (s.dropWhile pyIsSpace).reverse) pyIsSpace).length_le
    have h3 : (((s.dropWhile pyIsSpace).reverse.dropWhile
        pyIsSpace).reverse).length = s.length := by rw [h]
    simp only [List.length_reverse] at h2 h3
    omega
  have hfix : s.dropWhile pyIsSpace = s :=
    (List.dropWhile_sublist pyIsSpace).eq_of_length hlen
  refine ⟨hfix, ?_⟩
  rw [hfix] at h
  have := congrArg List.reverse h
  rwa [List.reverse_reverse] at this

/-- A nonempty head-fixed list stays fixed under `dropWhile` after any
extension to the right. -/
theorem dropWhile_fixed_extend {p : Char → Bool} (b : Char) (t rest : PyStr)
    (hfix : (b :: t).dropWhile p = b :: t) :
    (b :: (t ++ rest)).dropWhile p = b :: (t ++ rest) := by
  have hb : p b = false := by
    by_cases hp : p b = true
    · exfalso
      rw [List.dropWhile_cons_of_pos hp] at hfix
      have := (List.dropWhile_sublist (l := t) p).length_le
      have := congrArg List.length hfix
      simp at this
      omega
    · simpa using hp
  exact List.dropWhile_cons_of_neg (by simp [hb])

/-- Stripping the written CSV line `month,sales,expenses` changes nothing
when the month is strip-fixed and the last field is nonempty whitespace-free
text. -/
theorem pyStrip_line (month mid lastf : PyStr) (hm : pyStrip month = month)
    (hlast_ne : lastf ≠ []) (hlast : ∀ c ∈ lastf, pyIsSpace c = false) :
    pyStrip (month ++ ',' :: (mid ++ ',' :: lastf)) =
      month ++ ',' :: (mid ++ ',' :: lastf) := by
  have hcomma : pyIsSpace ',' = false := by decide
  have hfwd : (month ++ ',' :: (mid ++ ',' :: lastf)).dropWhile pyIsSpace =
      month ++ ',' :: (mid ++ ',' :: lastf) := by
    rcases month with _ | ⟨b, t⟩
    · exact List.dropWhile_cons_of_neg (by simp [hcomma])
    · have hfix := (pyStrip_eq_self_parts _ hm).1
      exact dropWhile_fixed_extend b t _ hfix
  have hrev : (month ++ ',' :: (mid ++ ',' :: lastf)).reverse.dropWhile
      pyIsSpace = (month ++ ',' :: (mid ++ ',' :: lastf)).reverse := by
    rcases hlr : lastf.reverse with _ | ⟨c, cs⟩
    · exact absurd (List.reverse_eq_nil_iff.1 hlr) hlast_ne
    · have hcmem : c ∈ lastf := by
        rw [← List.mem_reverse, hlr]
        exact List.mem_cons_self _ _
      have hshape : (month ++ ',' :: (mid ++ ',' :: lastf)).reverse =
          c :: (cs ++ (',' :: mid.reverse ++ ',' :: month.reverse)) := by
        simp [List.reverse_append, hlr]
      rw [hshape]
      exact List.dropWhile_cons_of_neg (by simp [hlast c hcmem])
  unfold pyStrip
  rw [hfwd, hrev, List.reverse_reverse]

/-- The parsing loop inverts the written data lines record by record. -/
theorem parseDataLines_writeCsv (rs : List Record)
    (h : ∀ r ∈ rs, wellFormedRecord r) :
    parseDataLines (rs.map (fun r =>
      r.month ++ ',' :: (intDecimal r.sales ++ ',' :: intDecimal r.expenses))) =
      some rs := by
  induction rs with
  | nil => rfl
  | cons r rs ih =>
    obtain ⟨hm, hchars⟩ := h r (List.mem_cons_self _ _)
    have hstrip : pyStrip (r.month ++ ',' ::
        (intDecimal r.sales ++ ',' :: intDecimal r.expenses)) =
        r.month ++ ',' :: (intDecimal r.sales ++ ',' :: intDecimal r.expenses) :=
      pyStrip_line r.month _ _ hm (intDecimal_ne_nil _)
        (intDecimal_not_space _)
    have hsplit : pySplitComma (r.month ++ ',' ::
        (intDecimal r.sales ++ ',' :: intDecimal r.expenses)) =
        [r.month, intDecimal r.sales, intDecimal r.expenses] := by
      rw [pySplitComma_append r.month _ (fun c hc => (hchars c hc).1),
        pySplitComma_append (intDecimal r.sales) _ (intDecimal_ne_comma _),
        pySplitComma_no_comma _ (intDecimal_ne_comma _)]
    simp only [List.map_cons, parseDataLines]
    rw [hstrip]
    rw [if_neg (by simp), hsplit]
    simp only
    rw [pyInt_intDecimal r.sales, pyInt_intDecimal r.expenses,
      ih (fun x hx => h x (List.mem_cons_of_mem _ hx)), hm]
    rfl

/-- Claim C4: round-trip — writing any list of well-formed records as a
header plus one `month,sales,expenses` line each, then loading that file
with `read_csv`, returns exactly the written records in order. -/
theorem read_csv_roundtrip (header : PyStr) (rs : List Record)
    (h : ∀ r ∈ rs, wellFormedRecord r) :
    read_csv (.found (writeCsvLines header rs)) = rs := by
  simp only [read_csv, writeCsvLines]
  rw [show (header :: rs.map (fun r =>
      r.month ++ ',' :: (intDecimal r.sales ++ ',' :: intDecimal r.expenses))).drop 1
    = rs.map (fun r =>
      r.month ++ ',' :: (intDecimal r.sales ++ ',' :: intDecimal r.expenses))
    from rfl]
  rw [parseDataLines_writeCsv rs h]

/-- Witness for C4 at a concrete two-record list (one negative value). -/
theorem read_csv_roundtrip_witness :
    read_csv (.found (writeCsvLines ['h']
      [⟨['J', 'a', 'n'], 1000, 500⟩, ⟨['F', 'e', 'b'], 42, -530⟩])) =
      [⟨['J', 'a', 'n'], 1000, 500⟩, ⟨['F', 'e', 'b'], 42, -530⟩] :=
  read_csv_roundtrip ['h']
    [⟨['J', 'a', 'n'], 1000, 500⟩, ⟨['F', 'e', 'b'], 42, -530⟩] (by decide)

/-! ## Claims about the chart mapper -/

/-- The running maximum in `create_sales_chart` never drops below its seed. -/
theorem le_foldl_max (rs : List Record) (a : Int) :
    a ≤ rs.foldl (fun b it => max b (max it.sales it.expenses)) a := by
  induction rs generalizing a with
  | nil => exact le_refl a
  | cons r rs ih =>
    simp only [List.foldl_cons]
    exact le_trans (le_max_left _ _) (ih _)

/-- The running maximum bounds every record it has seen. -/
theorem mem_le_foldl_max (rs : List Record) (a : Int) (r : Record) (hr : r ∈ rs) :
    r.sales ≤ rs.foldl (fun b it => max b (max it.sales it.expenses)) a ∧
    r.expenses ≤ rs.foldl (fun b it => max b (max it.sales it.expenses)) a := by
  induction rs generalizing a with
  | nil => cases hr
  | cons r0 rs ih =>
    simp only [List.foldl_cons]
    rcases List.mem_cons.1 hr with h | h
    · subst h
      constructor
      · exact le_trans (le_trans (le_max_left _ _) (le_max_right a _)) (le_foldl_max _ _)
      · exact le_trans (le_trans (le_max_right _ _) (le_max_right a _)) (le_foldl_max _ _)
    · exact ih _ h

/-- The running maximum is its seed or a value of some record it has seen. -/
theorem foldl_max_attained (rs : List Record) (a : Int) :
    rs.foldl (fun b it => max b (max it.sales it.expenses)) a = a ∨
    ∃ r ∈ rs, rs.foldl (fun b it => max b (max it.sales it.expenses)) a = r.sales ∨
      rs.foldl (fun b it => max b (max it.sales it.expenses)) a = r.expenses := by
  induction rs generalizing a with
  | nil => exact Or.inl rfl
  | cons r0 rs ih =>
    simp only [List.foldl_cons]
    rcases ih (max a (max r0.sales r0.expenses)) with h | ⟨r, hr, h⟩
    · rw [h]
      rcases max_choice a (max r0.sales r0.expenses) with h2 | h2
      · exact Or.inl h2
      · refine Or.inr ⟨r0, List.mem_cons_self _ _, ?_⟩
        rw [h2]
        exact max_choice _ _
    · exact Or.inr ⟨r, List.mem_cons_of_mem _ hr, h⟩

/-- The chart's tick loop `range(0, max_y + 1000, 1000)` labelled by
`leftLabel` is exactly the spec's tick-label list for the bound
`max_y = (q + 1) * 1000`. -/
theorem range1000_leftLabel_eq_spec (q : Int) :
    (range1000 ((q + 1) * 1000 + 1000)).map leftLabel =
      specTickLabels ((q + 1) * 1000) := by
  unfold range1000 specTickLabels
  have hcount : ((q + 1) * 1000 + 1000 + 999).fdiv 1000 = q + 2 := by
    rw [Int.fdiv_eq_ediv _ (by norm_num)]
    have harith : (q + 1) * 1000 + 1000 + 999 = 999 + (q + 2) * 1000 := by ring
    rw [harith, Int.add_mul_ediv_right _ _ (by norm_num)]
    norm_num
  rw [hcount]
  by_cases hq : q + 1 < 0
  · rw [if_pos (by nlinarith)]
    have h0 : (q + 2).toNat = 0 := by omega
    simp [h0]
  · push_neg at hq
    rw [if_neg (by nlinarith)]
    have h2 : (q + 2).toNat = (q + 1).toNat + 1 := by omega
    have h3 : ((q + 1) * 1000).toNat = (q + 1).toNat * 1000 := by omega
    rw [h2, h3, Nat.mul_div_cancel _ (by norm_num), List.map_map]
    refine List.map_congr_left (fun i hi => ?_)
    simp only [Function.comp_apply, leftLabel]
    have hz : (1000 : Int) * (i : Int) = 0 ↔ i = 0 := by omega
    by_cases hi0 : i = 0
    · subst hi0; simp
    · rw [if_neg (by omega), if_neg hi0,
        Int.mul_fdiv_cancel_left _ (by norm_num)]

/-- The shape `create_sales_chart` produces on a nonempty list, with the
`max`-seeded fold spelled out. -/
theorem create_sales_chart_cons (r0 : Record) (rs : List Record) :
    create_sales_chart (r0 :: rs) = some
      { groups := (r0 :: rs).enum.map (fun p =>
          { x := p.1, rods := [{ from_y := 0, to_y := p.2.sales },
                               { from_y := 0, to_y := p.2.expenses }] }),
        left_labels := (range1000
          ((((rs.foldl (fun b it => max b (max it.sales it.expenses))
              (max r0.sales r0.expenses)).fdiv 1000 + 1) * 1000) + 1000)).map leftLabel,
        bottom_labels := (r0 :: rs).enum.map (fun p =>
          { value := (p.1 : Int), label := p.2.month.take 3 }) } := rfl

/-- Claim C7: on a nonempty record list the chart has exactly one group per
record, in record order: group `i` sits at horizontal position `i`, carries
the record's sales bar then its expenses bar (both from 0), and the bottom
axis label at `i` shows the first three characters of the record's month. -/
theorem create_sales_chart_groups_spec (data : List Record) (hne : data ≠ []) :
    ∃ chart, create_sales_chart data = some chart ∧
      chart.groups.length = data.length ∧
      chart.bottom_labels.length = data.length ∧
      ∀ i r, data[i]? = some r →
        chart.groups[i]? =
          some ({ x := i,
                  rods := [{ from_y := 0, to_y := r.sales },
                           { from_y := 0, to_y := r.expenses }] } : BarChartGroup) ∧
        chart.bottom_labels[i]? =
          some ({ value := (i : Int), label := r.month.take 3 } : ChartAxisLabel) := by
  obtain ⟨r0, rs, rfl⟩ := List.exists_cons_of_ne_nil hne
  refine ⟨_, create_sales_chart_cons r0 rs, by simp, by simp, fun i r hi => ?_⟩
  constructor
  · simp only [List.getElem?_map, List.getElem?_enum, hi, Option.map_some']
  · simp only [List.getElem?_map, List.getElem?_enum, hi, Option.map_some']

/-- Witness for C7 at a concrete one-record list. -/
theorem create_sales_chart_groups_spec_witness :
    ∃ chart,
      create_sales_chart [⟨['J', 'a', 'n', 'u'], 1000, 500⟩] = some chart ∧
      chart.groups.length = ([⟨['J', 'a', 'n', 'u'], 1000, 500⟩] : List Record).length ∧
      chart.bottom_labels.length =
        ([⟨['J', 'a', 'n', 'u'], 1000, 500⟩] : List Record).length ∧
      ∀ i r, ([⟨['J', 'a', 'n', 'u'], 1000, 500⟩] : List Record)[i]? = some r →
        chart.groups[i]? =
          some ({ x := i,
                  rods := [{ from_y := 0, to_y := r.sales },
                           { from_y := 0, to_y := r.expenses }] } : BarChartGroup) ∧
        chart.bottom_labels[i]? =
          some ({ value := (i : Int), label := r.month.take 3 } : ChartAxisLabel) :=
  create_sales_chart_groups_spec _ (by decide)

/-- Claim C6: on a nonempty record list the vertical-axis bound is the next
multiple of 1000 strictly above the maximum observed sales/expenses value,
and the left-axis labels are the ticks from 0 to that bound in steps of
1000, `"0"` at zero and `"<n>K"` at `n * 1000`. -/
theorem create_sales_chart_yaxis (data : List Record) (hne : data ≠ []) :
    ∃ chart maxv bound, create_sales_chart data = some chart ∧
      maxSalesExpenses data = some maxv ∧
      (∀ r ∈ data, r.sales ≤ maxv ∧ r.expenses ≤ maxv) ∧
      (∃ r ∈ data, maxv = r.sales ∨ maxv = r.expenses) ∧
      (∃ k : Int, bound = 1000 * k) ∧
      maxv < bound ∧ bound ≤ maxv + 1000 ∧
      chart.left_labels = specTickLabels bound := by
  obtain ⟨r0, rs, rfl⟩ := List.exists_cons_of_ne_nil hne
  set M := rs.foldl (fun b it => max b (max it.sales it.expenses))
    (max r0.sales r0.expenses) with hM
  refine ⟨_, M, (M.fdiv 1000 + 1) * 1000, create_sales_chart_cons r0 rs, rfl,
    ?_, ?_, ⟨M.fdiv 1000 + 1, by ring⟩, ?_, ?_, ?_⟩
  · intro r hr
    rcases List.mem_cons.1 hr with h | h
    · subst h
      exact ⟨le_trans (le_max_left _ _) (le_foldl_max _ _),
             le_trans (le_max_right _ _) (le_foldl_max _ _)⟩
    · exact mem_le_foldl_max rs _ r h
  · rcases foldl_max_attained rs (max r0.sales r0.expenses) with h | ⟨r, hr, h⟩
    · refine ⟨r0, List.mem_cons_self _ _, ?_⟩
      rw [hM, h]
      exact max_choice _ _
    · exact ⟨r, List.mem_cons_of_mem _ hr, hM ▸ h⟩
  · exact Int.lt_fdiv_add_one_mul_self _ (by norm_num)
  · have h1 : M.fdiv 1000 * 1000 ≤ M := by
      rw [Int.fdiv_eq_ediv _ (by norm_num)]
      exact Int.ediv_mul_le M (by norm_num)
    linarith
  · exact range1000_leftLabel_eq_spec (M.fdiv 1000)

/-- Witness for C6 at a concrete one-record list. -/
theorem create_sales_chart_yaxis_witness :
    ∃ chart maxv bound,
      create_sales_chart [⟨['J'], 2000, 800⟩] = some chart ∧
      maxSalesExpenses [⟨['J'], 2000, 800⟩] = some maxv ∧
      (∀ r ∈ ([⟨['J'], 2000, 800⟩] : List Record),
        r.sales ≤ maxv ∧ r.expenses ≤ maxv) ∧
      (∃ r ∈ ([⟨['J'], 2000, 800⟩] : List Record),
        maxv = r.sales ∨ maxv = r.expenses) ∧
      (∃ k : Int, bound = 1000 * k) ∧
      maxv < bound ∧ bound ≤ maxv + 1000 ∧
      chart.left_labels = specTickLabels bound :=
  create_sales_chart_yaxis _ (by decide)

/-! ## Claim about the empty-data guard -/

/-- Claim C10: `create_sales_chart` is undefined on the empty list (the `max`
over an empty generator raises, modelled as `none`); `main` returns early
with the static error message whenever the loader yields no records, and
consequently no exception ever escapes `main`. -/
theorem main_empty_data_guard :
    create_sales_chart ([] : List Record) = none ∧
    (∀ file, read_csv file = [] → main file = some (.errorMessage errorText)) ∧
    (∀ file, ∃ p, main file = some p) := by
  refine ⟨rfl, fun file h => by simp [main, h], fun file => ?_⟩
  cases hd : read_csv file with
  | nil => exact ⟨.errorMessage errorText, by simp [main, hd]⟩
  | cons r rs =>
    obtain ⟨chart, hc⟩ : ∃ chart, create_sales_chart (r :: rs) = some chart :=
      ⟨_, rfl⟩
    exact ⟨.dashboard (calculate_totals (r :: rs)) chart, by simp [main, hd, hc]⟩

/-- Witness for C10: the early return at a concrete failing file. -/
theorem main_empty_data_guard_witness :
    main .notFound = some (.errorMessage errorText) :=
  main_empty_data_guard.2.1 .notFound rfl

end SalesChart
